import Mathlib

/-!
Shallow embedding of `LockedBuffer<T>` from `src/memory/locked.rs` (rustacuda).

The buffer is a raw base address plus an element capacity.  The external
pinned-memory allocator (`cuda_malloc_locked` / `cuda_free_locked`, which live
outside `src/`) is modelled as an explicit state that records the live
allocations and the number of allocator / deallocator calls, so that
"performs no driver call" claims are observable.  Element slots hold
`Option T`: `none` is an uninitialized slot.  `mem::size_of::<T>()` is the
explicit parameter `sz`, and `T::clone` is the explicit parameter `clone`,
since both are type-level properties of `T` in the Rust source.
-/

namespace RustaCUDA

/-- Modelled from the spec: the local error type (the `error` module is not
under `src/`).  `InvalidMemoryAllocation` is synthesized locally on size
overflow (spec: `InvalidAllocationSize`); `DriverFailure` stands for an error
code propagated verbatim from the external allocator or deallocator. -/
inductive CudaError where
  | InvalidMemoryAllocation
  | DriverFailure
deriving DecidableEq, Repr

/-- `CudaResult<T>` from the error module. -/
abbrev CudaResult (α : Type) := Except CudaError α

/-- The modelled platform has 64-bit addresses: `usize::MAX`. -/
def usizeMax : Nat := 2 ^ 64 - 1

/-- `usize::checked_mul`: `some (a * b)` unless the product overflows. -/
def checkedMul (a b : Nat) : Option Nat :=
  if a * b ≤ usizeMax then some (a * b) else none

/-- `ptr::NonNull::dangling().as_ptr()`: the fixed non-null placeholder
address used when no real allocation is made. -/
def danglingAddr : Nat := 1

/-- Modelled from the spec: the observable state of the external pinned
allocator (`allocate_pinned` / `free_pinned` are not under `src/`).
`blocks` maps a base address to the slot contents of the live allocation at
that address (`none` slots are uninitialized bytes); `mallocCalls` and
`freeCalls` record how often each primitive was invoked; `allocOk` and
`freeOk` say whether the driver currently succeeds. -/
structure AllocState (T : Type) where
  nextAddr : Nat
  blocks : Nat → Option (List (Option T))
  mallocCalls : Nat
  freeCalls : Nat
  allocOk : Bool
  freeOk : Bool

/-- An allocator state with no live allocations and no calls recorded. -/
def initState (T : Type) : AllocState T :=
  { nextAddr := 2
    blocks := fun _ => none
    mallocCalls := 0
    freeCalls := 0
    allocOk := true
    freeOk := true }

/-- Well-formed allocator state: every live block sits at an address that is
neither the dangling placeholder nor an address the allocator has yet to hand
out. -/
def WF {T : Type} (σ : AllocState T) : Prop :=
  2 ≤ σ.nextAddr ∧ ∀ a, (σ.blocks a).isSome → 2 ≤ a ∧ a < σ.nextAddr

/-- Modelled from the spec: `cuda_malloc_locked(bytes)` returning `*mut T`
(`allocate_pinned(byte_count) -> Result<RawAddress, DriverError>`).  The call
is always recorded; on success a fresh address backed by `bytes / sz`
uninitialized element slots is returned. -/
def cuda_malloc_locked {T : Type} (sz bytes : Nat) (σ : AllocState T) :
    CudaResult Nat × AllocState T :=
  if σ.allocOk then
    (Except.ok σ.nextAddr,
      { σ with
        blocks := fun a =>
          if a = σ.nextAddr then some (List.replicate (bytes / sz) none)
          else σ.blocks a
        nextAddr := σ.nextAddr + bytes + 1
        mallocCalls := σ.mallocCalls + 1 })
  else
    (Except.error CudaError.DriverFailure, { σ with mallocCalls := σ.mallocCalls + 1 })

/-- Modelled from the spec: `cuda_free_locked(ptr)`
(`free_pinned(address) -> Result<(), DriverError>`).  The call is always
recorded; on success the block at `p` is no longer live. -/
def cuda_free_locked {T : Type} (p : Nat) (σ : AllocState T) :
    CudaResult Unit × AllocState T :=
  if σ.freeOk then
    (Except.ok (),
      { σ with
        blocks := fun a => if a = p then none else σ.blocks a
        freeCalls := σ.freeCalls + 1 })
  else
    (Except.error CudaError.DriverFailure, { σ with freeCalls := σ.freeCalls + 1 })

/-- `LockedBuffer<T>`: a raw base address and an element capacity. -/
structure LockedBuffer (T : Type) where
  buf : Nat
  capacity : Nat
deriving DecidableEq, Repr

namespace LockedBuffer

/-- `LockedBuffer::uninitialized(size)`: `bytes = size.checked_mul(size_of::<T>())`
(overflow is `InvalidMemoryAllocation`); for `bytes > 0` the pinned allocator
is invoked, otherwise the dangling placeholder is used and no driver call is
made. -/
def uninitialized {T : Type} (sz size : Nat) (σ : AllocState T) :
    CudaResult (LockedBuffer T) × AllocState T :=
  match checkedMul size sz with
  | none => (Except.error CudaError.InvalidMemoryAllocation, σ)
  | some bytes =>
    if 0 < bytes then
      match cuda_malloc_locked sz bytes σ with
      | (Except.ok p, σ₁) => (Except.ok { buf := p, capacity := size }, σ₁)
      | (Except.error e, σ₁) => (Except.error e, σ₁)
    else
      (Except.ok { buf := danglingAddr, capacity := size }, σ)

/-- A store of `v` into slot `i` of the memory behind `b`
(`*uninit.get_unchecked_mut(i) = v` resp. `buffer[i] = v`): the block at the
buffer's base address, when live, gets slot `i` overwritten; memory not backed
by a live block (the dangling placeholder, zero-sized elements) is untouched. -/
def writeSlot {T : Type} (b : LockedBuffer T) (i : Nat) (v : T) (σ : AllocState T) :
    AllocState T :=
  { σ with
    blocks := fun a =>
      if a = b.buf then (σ.blocks a).map (fun l => l.set i (some v))
      else σ.blocks a }

/-- The initialization loop of `LockedBuffer::new`:
`for x in 0..size { *uninit.get_unchecked_mut(x) = value.clone(); }`. -/
def writeLoop {T : Type} (clone : T → T) (b : LockedBuffer T) (value : T) :
    Nat → AllocState T → AllocState T
  | 0, σ => σ
  | n + 1, σ => writeSlot b n (clone value) (writeLoop clone b value n σ)

/-- `LockedBuffer::new(value, size)`. -/
def new {T : Type} (clone : T → T) (sz : Nat) (value : T) (size : Nat)
    (σ : AllocState T) : CudaResult (LockedBuffer T) × AllocState T :=
  match uninitialized sz size σ with
  | (Except.ok b, σ₁) => (Except.ok b, writeLoop clone b value size σ₁)
  | (Except.error e, σ₁) => (Except.error e, σ₁)

/-- The initialization loop of `LockedBuffer::from_slice`:
`for (i, x) in slice.iter().enumerate() { *uninit.get_unchecked_mut(i) = x.clone(); }`. -/
def writeSliceLoop {T : Type} (clone : T → T) (b : LockedBuffer T) :
    List T → Nat → AllocState T → AllocState T
  | [], _, σ => σ
  | x :: xs, i, σ => writeSliceLoop clone b xs (i + 1) (writeSlot b i (clone x) σ)

/-- `LockedBuffer::from_slice(slice)`. -/
def from_slice {T : Type} (clone : T → T) (sz : Nat) (s : List T)
    (σ : AllocState T) : CudaResult (LockedBuffer T) × AllocState T :=
  match uninitialized sz s.length σ with
  | (Except.ok b, σ₁) => (Except.ok b, writeSliceLoop clone b s 0 σ₁)
  | (Except.error e, σ₁) => (Except.error e, σ₁)

/-- `LockedBuffer::from_raw_parts(ptr, size)`. -/
def from_raw_parts {T : Type} (p size : Nat) : LockedBuffer T :=
  { buf := p, capacity := size }

/-- `as_mut_ptr` of the buffer (through the deref-mut slice view). -/
def as_mut_ptr {T : Type} (b : LockedBuffer T) : Nat := b.buf

/-- `len` of the buffer (length of the deref slice view). -/
def len {T : Type} (b : LockedBuffer T) : Nat := b.capacity

/-- Reading `cap` elements starting at the base of a block whose live contents
are `l`: bytes past the end of the live block read as uninitialized. -/
def readBlock {T : Type} (cap : Nat) (l : List (Option T)) : List (Option T) :=
  l.take cap ++ List.replicate (cap - l.length) none

/-- `ops::Deref`: `slice::from_raw_parts(self.buf, self.capacity)`.  For a
zero-sized element type every one of the `capacity` reads materializes the
(unique) value of `T` without touching memory; otherwise the `capacity` slots
of the block at the base address are read. -/
def deref {T : Type} [Inhabited T] (sz : Nat) (b : LockedBuffer T)
    (σ : AllocState T) : List (Option T) :=
  if sz = 0 then List.replicate b.capacity (some default)
  else readBlock b.capacity ((σ.blocks b.buf).getD [])

/-- `as_slice` returns `self`, i.e. the whole-buffer deref view. -/
def as_slice {T : Type} [Inhabited T] (sz : Nat) (b : LockedBuffer T)
    (σ : AllocState T) : List (Option T) := deref sz b σ

/-- `as_ref` returns `self`, i.e. the whole-buffer deref view. -/
def as_ref {T : Type} [Inhabited T] (sz : Nat) (b : LockedBuffer T)
    (σ : AllocState T) : List (Option T) := deref sz b σ

/-- Safe element read `buffer[i]` through the deref slice view: `none` models
the out-of-bounds panic. -/
def getIdx {T : Type} [Inhabited T] (sz : Nat) (b : LockedBuffer T)
    (σ : AllocState T) (i : Nat) : Option (Option T) :=
  (deref sz b σ)[i]?

/-- Safe element write `buffer[i] = v` through the deref-mut slice view:
`none` models the out-of-bounds panic. -/
def setIdx {T : Type} (b : LockedBuffer T) (i : Nat) (v : T)
    (σ : AllocState T) : Option (AllocState T) :=
  if i < b.capacity then some (writeSlot b i v σ) else none

/-- `Drop for LockedBuffer`: free the allocation when `capacity > 0` and the
element footprint is non-zero; a deallocator failure panics (`.expect`),
modelled as `none`; otherwise the buffer survives with `capacity = 0`. -/
def drop {T : Type} (sz : Nat) (b : LockedBuffer T) (σ : AllocState T) :
    Option (LockedBuffer T × AllocState T) :=
  if 0 < b.capacity ∧ 0 < sz then
    match cuda_free_locked b.buf σ with
    | (Except.ok _, σ₁) => some ({ b with capacity := 0 }, σ₁)
    | (Except.error _, _) => none
  else
    some ({ b with capacity := 0 }, σ)

/-- Contents-level effect of the loop in `LockedBuffer::new` on one block:
slots `0 .. n-1` are overwritten with `some cv`. -/
def fillN {T : Type} (cv : T) : Nat → List (Option T) → List (Option T)
  | 0, l => l
  | n + 1, l => (fillN cv n l).set n (some cv)

/-- Contents-level effect of the loop in `LockedBuffer::from_slice` on one
block: slot `i + k` is overwritten with `some (clone xs_k)`. -/
def fillFrom {T : Type} (clone : T → T) :
    List T → Nat → List (Option T) → List (Option T)
  | [], _, l => l
  | x :: xs, i, l => fillFrom clone xs (i + 1) (l.set i (some (clone x)))

end LockedBuffer

open LockedBuffer

/-! Helper lemmas about the embedding. -/

/-- The freshly initialized allocator state is well formed. -/
theorem initState_WF (T : Type) : WF (initState T) := by
  refine ⟨le_refl 2, fun a h => ?_⟩
  simp [initState] at h

theorem fillN_length {T : Type} (cv : T) (n : Nat) (l : List (Option T)) :
    (fillN cv n l).length = l.length := by
  induction n with
  | zero => rfl
  | succ n ih => simp [fillN, ih]

theorem fillN_getElem? {T : Type} (cv : T) (n : Nat) (l : List (Option T)) (j : Nat) :
    (fillN cv n l)[j]? =
      if j < n ∧ j < l.length then some (some cv) else l[j]? := by
  induction n with
  | zero => simp [fillN]
  | succ n ih =>
    simp only [fillN, List.getElem?_set, fillN_length]
    by_cases hj : n = j
    · subst hj
      by_cases hl : n < l.length
      · simp [hl]
      · rw [if_pos rfl, if_neg hl, if_neg (by omega), List.getElem?_eq_none (by omega)]
    · rw [if_neg hj, ih]
      have hiff : (j < n ∧ j < l.length) ↔ (j < n + 1 ∧ j < l.length) := by omega
      rw [if_congr hiff rfl rfl]

/-- The initialization loop of `new` fills the whole block with `some cv`
regardless of what the uninitialized slots previously held. -/
theorem fillN_of_length {T : Type} (cv : T) (n : Nat) (l : List (Option T))
    (h : l.length = n) : fillN cv n l = List.replicate n (some cv) := by
  apply List.ext_getElem?
  intro j
  rw [fillN_getElem?, h, List.getElem?_replicate]
  by_cases hj : j < n
  · simp [hj]
  · rw [if_neg (by omega), if_neg hj, List.getElem?_eq_none (by omega)]

theorem writeSlot_blocks {T : Type} (b : LockedBuffer T) (i : Nat) (v : T)
    (σ : AllocState T) (a : Nat) :
    (writeSlot b i v σ).blocks a =
      if a = b.buf then (σ.blocks a).map (fun l => l.set i (some v))
      else σ.blocks a := rfl

theorem writeLoop_blocks {T : Type} (clone : T → T) (b : LockedBuffer T) (v : T)
    (n : Nat) (σ : AllocState T) (a : Nat) :
    (writeLoop clone b v n σ).blocks a =
      if a = b.buf then (σ.blocks a).map (fillN (clone v) n) else σ.blocks a := by
  induction n with
  | zero =>
    by_cases h : a = b.buf
    · subst h
      cases hb : σ.blocks b.buf <;> simp [writeLoop, fillN, hb]
    · simp [writeLoop, h]
  | succ n ih =>
    by_cases h : a = b.buf
    · subst h
      rw [writeLoop, writeSlot_blocks, if_pos rfl, ih, if_pos rfl]
      cases hx : σ.blocks b.buf <;> simp [hx, fillN]
    · rw [writeLoop, writeSlot_blocks, if_neg h, ih, if_neg h, if_neg h]

theorem writeLoop_mallocCalls {T : Type} (clone : T → T) (b : LockedBuffer T)
    (v : T) (n : Nat) (σ : AllocState T) :
    (writeLoop clone b v n σ).mallocCalls = σ.mallocCalls := by
  induction n with
  | zero => rfl
  | succ n ih => simp [writeLoop, writeSlot, ih]

theorem writeLoop_freeCalls {T : Type} (clone : T → T) (b : LockedBuffer T)
    (v : T) (n : Nat) (σ : AllocState T) :
    (writeLoop clone b v n σ).freeCalls = σ.freeCalls := by
  induction n with
  | zero => rfl
  | succ n ih => simp [writeLoop, writeSlot, ih]

theorem writeSliceLoop_blocks {T : Type} (clone : T → T) (b : LockedBuffer T)
    (xs : List T) (i : Nat) (σ : AllocState T) (a : Nat) :
    (writeSliceLoop clone b xs i σ).blocks a =
      if a = b.buf then (σ.blocks a).map (fillFrom clone xs i) else σ.blocks a := by
  induction xs generalizing i σ with
  | nil =>
    by_cases h : a = b.buf
    · subst h
      cases hb : σ.blocks b.buf <;> simp [writeSliceLoop, fillFrom, hb]
    · simp [writeSliceLoop, h]
  | cons x xs ih =>
    rw [writeSliceLoop, ih]
    by_cases h : a = b.buf
    · subst h
      rw [if_pos rfl, writeSlot_blocks, if_pos rfl, if_pos rfl]
      cases hx : σ.blocks b.buf <;> simp [hx, fillFrom]
    · rw [if_neg h, writeSlot_blocks, if_neg h, if_neg h]

theorem writeSliceLoop_mallocCalls {T : Type} (clone : T → T) (b : LockedBuffer T)
    (xs : List T) (i : Nat) (σ : AllocState T) :
    (writeSliceLoop clone b xs i σ).mallocCalls = σ.mallocCalls := by
  induction xs generalizing i σ with
  | nil => rfl
  | cons x xs ih => simp [writeSliceLoop, ih, writeSlot]

theorem fillFrom_getElem? {T : Type} (clone : T → T) (xs : List T) (i : Nat)
    (l : List (Option T)) (j : Nat) :
    (fillFrom clone xs i l)[j]? =
      if i ≤ j ∧ j < i + xs.length ∧ j < l.length
      then (xs[j - i]?).map (fun x => some (clone x))
      else l[j]? := by
  induction xs generalizing i l with
  | nil =>
    rw [fillFrom, if_neg (by simp; omega)]
  | cons x xs ih =>
    rw [fillFrom, ih, List.length_set]
    by_cases hcase : i + 1 ≤ j ∧ j < i + 1 + xs.length ∧ j < l.length
    · rw [if_pos hcase, if_pos (by simp [List.length_cons]; omega)]
      have h2 : j - i = (j - (i + 1)) + 1 := by omega
      rw [h2, List.getElem?_cons_succ]
    · rw [if_neg hcase]
      by_cases htgt : i ≤ j ∧ j < i + (x :: xs).length ∧ j < l.length
      · have hji : j = i := by simp [List.length_cons] at htgt; omega
        subst hji
        rw [if_pos htgt, List.getElem?_set_self (htgt.2.2)]
        simp
      · rw [if_neg htgt]
        by_cases hij : i = j
        · subst hij
          have hlen : l.length ≤ i := by simp [List.length_cons] at htgt; omega
          rw [List.set_eq_of_length_le hlen]
        · rw [List.getElem?_set_ne hij]

theorem readBlock_length {T : Type} (cap : Nat) (l : List (Option T)) :
    (readBlock cap l).length = cap := by
  simp only [readBlock, List.length_append, List.length_take, List.length_replicate]
  omega

theorem readBlock_getElem? {T : Type} (cap : Nat) (l : List (Option T)) (j : Nat) :
    (readBlock cap l)[j]? = if j < cap then some (l[j]?.getD none) else none := by
  unfold readBlock
  by_cases h1 : j < cap
  · by_cases h2 : j < l.length
    · rw [List.getElem?_append_left (by simp [List.length_take]; omega),
        List.getElem?_take_of_lt h1, List.getElem?_eq_getElem h2]
      simp [h1]
    · rw [List.getElem?_append_right (by simp [List.length_take]; omega),
        List.length_take, List.getElem?_replicate, if_pos (by omega),
        if_pos h1, List.getElem?_eq_none (by omega)]
      rfl
  · rw [List.getElem?_eq_none, if_neg h1]
    simp only [List.length_append, List.length_take, List.length_replicate]
    omega

theorem readBlock_of_length {T : Type} (cap : Nat) (l : List (Option T))
    (h : l.length = cap) : readBlock cap l = l := by
  subst h
  simp [readBlock]

theorem deref_length {T : Type} [Inhabited T] (sz : Nat) (b : LockedBuffer T)
    (σ : AllocState T) : (deref sz b σ).length = b.capacity := by
  unfold deref
  by_cases h : sz = 0 <;> simp [h, readBlock_length]

theorem isSome_getIdx_iff {T : Type} [Inhabited T] (sz : Nat) (b : LockedBuffer T)
    (σ : AllocState T) (i : Nat) :
    (getIdx sz b σ i).isSome ↔ i < b.capacity := by
  unfold getIdx
  constructor
  · intro h
    by_contra hlt
    rw [List.getElem?_eq_none (by rw [deref_length]; omega)] at h
    simp at h
  · intro h
    rw [List.getElem?_eq_getElem (by rw [deref_length]; exact h)]
    simp

theorem uninitialized_overflow {T : Type} (sz size : Nat) (σ : AllocState T)
    (h : usizeMax < size * sz) :
    uninitialized sz size σ = (Except.error CudaError.InvalidMemoryAllocation, σ) := by
  have h1 : checkedMul size sz = none := if_neg (by omega)
  unfold uninitialized
  rw [h1]

theorem uninitialized_zero {T : Type} (sz size : Nat) (σ : AllocState T)
    (h : size * sz = 0) :
    uninitialized sz size σ =
      (Except.ok { buf := danglingAddr, capacity := size }, σ) := by
  have h1 : checkedMul size sz = some 0 := by
    unfold checkedMul
    rw [h]
    simp
  unfold uninitialized
  rw [h1]
  rfl

theorem uninitialized_pos {T : Type} (sz size : Nat) (σ : AllocState T)
    (hsz : 0 < sz) (hsize : 0 < size) (hle : size * sz ≤ usizeMax)
    (hok : σ.allocOk = true) :
    uninitialized sz size σ =
      (Except.ok { buf := σ.nextAddr, capacity := size },
       { σ with
         blocks := fun a =>
           if a = σ.nextAddr then some (List.replicate size none) else σ.blocks a
         nextAddr := σ.nextAddr + size * sz + 1
         mallocCalls := σ.mallocCalls + 1 }) := by
  have h1 : checkedMul size sz = some (size * sz) := if_pos hle
  have hpos : 0 < size * sz := Nat.mul_pos hsize hsz
  have hdiv : size * sz / sz = size := Nat.mul_div_cancel size hsz
  unfold uninitialized
  rw [h1]
  simp only [if_pos hpos]
  unfold cuda_malloc_locked
  rw [if_pos hok]
  simp only [hdiv]

theorem uninitialized_no_alloc_fail {T : Type} (sz size : Nat) (σ : AllocState T)
    (hpos : 0 < size * sz) (hle : size * sz ≤ usizeMax)
    (hok : σ.allocOk = false) :
    uninitialized sz size σ =
      (Except.error CudaError.DriverFailure,
       { σ with mallocCalls := σ.mallocCalls + 1 }) := by
  have h1 : checkedMul size sz = some (size * sz) := if_pos hle
  unfold uninitialized
  rw [h1]
  simp only [if_pos hpos]
  unfold cuda_malloc_locked
  rw [hok]
  simp

theorem fillFrom_length {T : Type} (clone : T → T) (xs : List T) (i : Nat)
    (l : List (Option T)) : (fillFrom clone xs i l).length = l.length := by
  induction xs generalizing i l with
  | nil => rfl
  | cons x xs ih => simp [fillFrom, ih]

theorem WF_blocks_dangling {T : Type} (σ : AllocState T) (h : WF σ) :
    σ.blocks danglingAddr = none := by
  cases hb : σ.blocks danglingAddr with
  | none => rfl
  | some l =>
    have h2 := (h.2 danglingAddr (by rw [hb]; simp)).1
    simp [danglingAddr] at h2

theorem WF_blocks_nextAddr {T : Type} (σ : AllocState T) (h : WF σ) :
    σ.blocks σ.nextAddr = none := by
  cases hb : σ.blocks σ.nextAddr with
  | none => rfl
  | some l =>
    have h2 := (h.2 σ.nextAddr (by rw [hb]; simp)).2
    omega

theorem drop_pos {T : Type} (sz : Nat) (b : LockedBuffer T) (σ : AllocState T)
    (hc : 0 < b.capacity) (hs : 0 < sz) (hok : σ.freeOk = true) :
    LockedBuffer.drop sz b σ =
      some ({ buf := b.buf, capacity := 0 },
        { σ with
          blocks := fun a => if a = b.buf then none else σ.blocks a
          freeCalls := σ.freeCalls + 1 }) := by
  unfold LockedBuffer.drop
  rw [if_pos ⟨hc, hs⟩]
  unfold cuda_free_locked
  rw [if_pos hok]

theorem drop_zero_cap {T : Type} (sz p : Nat) (σ : AllocState T) :
    LockedBuffer.drop sz { buf := p, capacity := 0 } σ =
      some ({ buf := p, capacity := 0 }, σ) := by
  unfold LockedBuffer.drop
  rw [if_neg (by simp)]

theorem drop_fail {T : Type} (sz : Nat) (b : LockedBuffer T) (σ : AllocState T)
    (hc : 0 < b.capacity) (hs : 0 < sz) (hfail : σ.freeOk = false) :
    LockedBuffer.drop sz b σ = none := by
  unfold LockedBuffer.drop
  rw [if_pos ⟨hc, hs⟩]
  unfold cuda_free_locked
  rw [hfail]
  simp

/-! Claim theorems. -/

/-- C2: whenever `size * sizeof(T)` overflows `usize`, every allocating
constructor (`uninitialized`, `new`, `from_slice`) fails with
`CudaError::InvalidMemoryAllocation` and returns the allocator state
untouched, in particular without any call to the pinned allocator; the
witness instantiates the spec's concrete scenario
`new(&0u64, usize::MAX - 1)`. -/
theorem overflow_rejected {T : Type} (clone : T → T) (sz size : Nat) (v : T)
    (σ : AllocState T) (hov : usizeMax < size * sz) :
    uninitialized (T := T) sz size σ =
      (Except.error CudaError.InvalidMemoryAllocation, σ) ∧
    new clone sz v size σ = (Except.error CudaError.InvalidMemoryAllocation, σ) ∧
    ∀ s : List T, s.length = size →
      from_slice clone sz s σ =
        (Except.error CudaError.InvalidMemoryAllocation, σ) := by
  have hu := uninitialized_overflow sz size σ hov
  refine ⟨hu, ?_, ?_⟩
  · unfold new
    rw [hu]
  · intro s hs
    unfold from_slice
    rw [hs, hu]

/-- Witness for C2: `new(&0u64, usize::MAX - 1)` (element size 8) fails with
`InvalidMemoryAllocation` and the allocator state is untouched. -/
theorem overflow_rejected_witness :
    new (T := Nat) id 8 0 (2 ^ 64 - 2) (initState Nat) =
      (Except.error CudaError.InvalidMemoryAllocation, initState Nat) :=
  (overflow_rejected id 8 (2 ^ 64 - 2) 0 (initState Nat) (by decide)).2.1

/-- C3: when the requested byte count is zero (`size == 0` or
`sizeof(T) == 0`, any `size`), construction uses the fixed non-null dangling
placeholder and returns the allocator state untouched (no allocator call),
dropping such a buffer is a no-op on the allocator state (no deallocator
call), and the filled constructors also produce the placeholder address
without any allocator call. -/
theorem zero_bytes_no_driver_calls {T : Type} (clone : T → T) (sz size : Nat)
    (v : T) (σ : AllocState T) (h : size = 0 ∨ sz = 0) :
    uninitialized (T := T) sz size σ =
      (Except.ok { buf := danglingAddr, capacity := size }, σ) ∧
    danglingAddr ≠ 0 ∧
    LockedBuffer.drop sz { buf := danglingAddr, capacity := size } σ =
      some ({ buf := danglingAddr, capacity := 0 }, σ) ∧
    (∀ b σ₁, new clone sz v size σ = (Except.ok b, σ₁) →
      b.buf = danglingAddr ∧ σ₁.mallocCalls = σ.mallocCalls) ∧
    (∀ s : List T, s.length = size → ∀ b σ₁,
      from_slice clone sz s σ = (Except.ok b, σ₁) →
        b.buf = danglingAddr ∧ σ₁.mallocCalls = σ.mallocCalls) := by
  have hzero : size * sz = 0 := by rcases h with h | h <;> simp [h]
  have hu := uninitialized_zero sz size σ hzero
  have hnc : ¬(0 < size ∧ 0 < sz) := by
    rcases h with h | h <;> simp [h]
  refine ⟨hu, by decide, ?_, ?_, ?_⟩
  · unfold LockedBuffer.drop
    rw [if_neg (by simpa using hnc)]
  · intro b σ₁ hnew
    unfold new at hnew
    rw [hu] at hnew
    simp only [] at hnew
    injection hnew with h1 h2
    injection h1 with h1
    subst h1
    subst h2
    exact ⟨rfl, writeLoop_mallocCalls clone _ v size σ⟩
  · intro s hs b σ₁ hfs
    unfold from_slice at hfs
    rw [hs, hu] at hfs
    simp only [] at hfs
    injection hfs with h1 h2
    injection h1 with h1
    subst h1
    subst h2
    exact ⟨rfl, writeSliceLoop_mallocCalls clone _ s 0 σ⟩

/-- Witness for C3: a zero-sized element type with `size = 10`. -/
theorem zero_bytes_no_driver_calls_witness :
    uninitialized (T := Nat) 0 10 (initState Nat) =
      (Except.ok { buf := danglingAddr, capacity := 10 }, initState Nat) ∧
    danglingAddr ≠ 0 ∧
    LockedBuffer.drop 0 { buf := danglingAddr, capacity := 10 } (initState Nat) =
      some ({ buf := danglingAddr, capacity := 0 }, initState Nat) ∧
    (∀ b σ₁, new id 0 (0 : Nat) 10 (initState Nat) = (Except.ok b, σ₁) →
      b.buf = danglingAddr ∧ σ₁.mallocCalls = (initState Nat).mallocCalls) ∧
    (∀ s : List Nat, s.length = 10 → ∀ b σ₁,
      from_slice id 0 s (initState Nat) = (Except.ok b, σ₁) →
        b.buf = danglingAddr ∧ σ₁.mallocCalls = (initState Nat).mallocCalls) :=
  zero_bytes_no_driver_calls id 0 10 0 (initState Nat) (Or.inr rfl)

/-- C4: dropping a buffer with positive capacity and a non-zero element
footprint invokes the pinned deallocator on the base address exactly once
(the block at the base address ceases to be live and no other block is
touched); a failing deallocator panics (no error return, modelled as no
result state); after destruction the capacity is zero, and dropping the
destroyed buffer performs no further deallocator call. -/
theorem drop_frees_exactly_once {T : Type} (sz : Nat) (b : LockedBuffer T)
    (σ : AllocState T) (hc : 0 < b.capacity) (hs : 0 < sz) :
    (σ.freeOk = true →
      ∃ σ₁, LockedBuffer.drop sz b σ = some ({ buf := b.buf, capacity := 0 }, σ₁) ∧
        σ₁.freeCalls = σ.freeCalls + 1 ∧
        σ₁.blocks b.buf = none ∧
        (∀ a, a ≠ b.buf → σ₁.blocks a = σ.blocks a) ∧
        LockedBuffer.drop sz { buf := b.buf, capacity := 0 } σ₁ =
          some ({ buf := b.buf, capacity := 0 }, σ₁)) ∧
    (σ.freeOk = false → LockedBuffer.drop sz b σ = none) := by
  constructor
  · intro hok
    refine ⟨_, drop_pos sz b σ hc hs hok, rfl, by simp, ?_, drop_zero_cap sz b.buf _⟩
    intro a ha
    simp [ha]
  · intro hfail
    exact drop_fail sz b σ hc hs hfail

/-- Witness for C4: dropping a 3-element `u64` buffer at base address 5. -/
theorem drop_frees_exactly_once_witness :
    ((initState Nat).freeOk = true →
      ∃ σ₁, LockedBuffer.drop 8 { buf := 5, capacity := 3 } (initState Nat) =
          some ({ buf := 5, capacity := 0 }, σ₁) ∧
        σ₁.freeCalls = (initState Nat).freeCalls + 1 ∧
        σ₁.blocks 5 = none ∧
        (∀ a, a ≠ 5 → σ₁.blocks a = (initState Nat).blocks a) ∧
        LockedBuffer.drop 8 { buf := 5, capacity := 0 } σ₁ =
          some ({ buf := 5, capacity := 0 }, σ₁)) ∧
    ((initState Nat).freeOk = false →
      LockedBuffer.drop 8 { buf := 5, capacity := 3 } (initState Nat) = none) :=
  drop_frees_exactly_once 8 { buf := 5, capacity := 3 } (initState Nat)
    (by decide) (by decide)

/-- C5: decomposing a buffer into its raw base address and length
(`as_mut_ptr` / `len`, destructor suppressed) and reconstructing with
`from_raw_parts` yields the very same buffer, hence a buffer with identical
contents under every allocator state; dropping the reconstructed buffer
releases the memory exactly once: one deallocator call, the block ceases to
be live, and dropping the resulting zero-capacity buffer performs no further
deallocator call. -/
theorem raw_parts_roundtrip {T : Type} [Inhabited T] (sz : Nat)
    (b : LockedBuffer T) (σ : AllocState T)
    (hc : 0 < b.capacity) (hs : 0 < sz) (hok : σ.freeOk = true) :
    from_raw_parts (T := T) (as_mut_ptr b) (len b) = b ∧
    deref sz (from_raw_parts (as_mut_ptr b) (len b)) σ = deref sz b σ ∧
    ∃ σ₁, LockedBuffer.drop sz (from_raw_parts (as_mut_ptr b) (len b)) σ =
        some ({ buf := b.buf, capacity := 0 }, σ₁) ∧
      σ₁.freeCalls = σ.freeCalls + 1 ∧
      σ₁.blocks b.buf = none ∧
      LockedBuffer.drop sz { buf := b.buf, capacity := 0 } σ₁ =
        some ({ buf := b.buf, capacity := 0 }, σ₁) := by
  have hrt : from_raw_parts (T := T) (as_mut_ptr b) (len b) = b := rfl
  refine ⟨hrt, by rw [hrt], ?_⟩
  rw [hrt]
  exact ⟨_, drop_pos sz b σ hc hs hok, rfl, by simp, drop_zero_cap sz b.buf _⟩

/-- Witness for C5 on a 5-element `u64` buffer at base address 2. -/
theorem raw_parts_roundtrip_witness :
    from_raw_parts (T := Nat)
        (as_mut_ptr ({ buf := 2, capacity := 5 } : LockedBuffer Nat))
        (len ({ buf := 2, capacity := 5 } : LockedBuffer Nat)) =
      { buf := 2, capacity := 5 } ∧
    deref 8 (from_raw_parts
        (as_mut_ptr ({ buf := 2, capacity := 5 } : LockedBuffer Nat))
        (len ({ buf := 2, capacity := 5 } : LockedBuffer Nat))) (initState Nat) =
      deref 8 { buf := 2, capacity := 5 } (initState Nat) ∧
    ∃ σ₁, LockedBuffer.drop 8
        (from_raw_parts
          (as_mut_ptr ({ buf := 2, capacity := 5 } : LockedBuffer Nat))
          (len ({ buf := 2, capacity := 5 } : LockedBuffer Nat))) (initState Nat) =
        some ({ buf := 2, capacity := 0 }, σ₁) ∧
      σ₁.freeCalls = (initState Nat).freeCalls + 1 ∧
      σ₁.blocks 2 = none ∧
      LockedBuffer.drop 8 { buf := 2, capacity := 0 } σ₁ =
        some ({ buf := 2, capacity := 0 }, σ₁) :=
  raw_parts_roundtrip 8 { buf := 2, capacity := 5 } (initState Nat)
    (by decide) (by decide) rfl

/-- C7: safe element access through the deref slice view succeeds exactly for
indices below the capacity; for an index at or past the capacity it yields
the out-of-bounds failure (`none`) rather than clamping or returning a
value. -/
theorem safe_index_iff {T : Type} [Inhabited T] (sz : Nat) (b : LockedBuffer T)
    (σ : AllocState T) (i : Nat) :
    ((getIdx sz b σ i).isSome ↔ i < b.capacity) ∧
    (b.capacity ≤ i → getIdx sz b σ i = none) := by
  refine ⟨isSome_getIdx_iff sz b σ i, fun h => ?_⟩
  unfold getIdx
  exact List.getElem?_eq_none (by rw [deref_length]; exact h)

/-- Witness for C7: index 7 on a 5-element buffer is rejected. -/
theorem safe_index_iff_witness :
    ((getIdx 8 { buf := 2, capacity := 5 } (initState Nat) 7).isSome ↔
      7 < ({ buf := 2, capacity := 5 } : LockedBuffer Nat).capacity) ∧
    (({ buf := 2, capacity := 5 } : LockedBuffer Nat).capacity ≤ 7 →
      getIdx 8 { buf := 2, capacity := 5 } (initState Nat) 7 = none) :=
  safe_index_iff 8 { buf := 2, capacity := 5 } (initState Nat) 7

/-- C8: writing one slot leaves every other slot of the buffer unchanged;
concretely, `new(&0u64, 5)` followed by a safe write of `1` at index 2 reads
back as `[0, 0, 1, 0, 0]`, and the `new` call indeed yields the buffer at the
first allocator address. -/
theorem write_index_frame {T : Type} [Inhabited T] (sz : Nat)
    (b : LockedBuffer T) (σ : AllocState T) (i j : Nat) (v : T) (hji : j ≠ i) :
    (deref sz b (writeSlot b i v σ))[j]? = (deref sz b σ)[j]? ∧
    Option.map (deref 8 { buf := 2, capacity := 5 })
        (setIdx { buf := 2, capacity := 5 } 2 1
          ((new id 8 (0 : Nat) 5 (initState Nat)).2)) =
      some [some 0, some 0, some 1, some 0, some 0] ∧
    (new id 8 (0 : Nat) 5 (initState Nat)).1 =
      Except.ok { buf := 2, capacity := 5 } := by
  refine ⟨?_, rfl, rfl⟩
  unfold deref
  by_cases hsz : sz = 0
  · simp [hsz]
  · rw [if_neg hsz, if_neg hsz, readBlock_getElem?, readBlock_getElem?,
      writeSlot_blocks, if_pos rfl]
    by_cases hj : j < b.capacity
    · rw [if_pos hj, if_pos hj]
      cases hx : σ.blocks b.buf with
      | none => simp
      | some l => simp [List.getElem?_set_ne (Ne.symm hji)]
    · rw [if_neg hj, if_neg hj]

/-- Witness for C8: reading slot 0 after writing slot 2. -/
theorem write_index_frame_witness :
    (deref 8 { buf := 2, capacity := 5 }
        (writeSlot { buf := 2, capacity := 5 } 2 (1 : Nat) (initState Nat)))[0]? =
      (deref 8 { buf := 2, capacity := 5 } (initState Nat))[0]? ∧
    Option.map (deref 8 { buf := 2, capacity := 5 })
        (setIdx { buf := 2, capacity := 5 } 2 1
          ((new id 8 (0 : Nat) 5 (initState Nat)).2)) =
      some [some 0, some 0, some 1, some 0, some 0] ∧
    (new id 8 (0 : Nat) 5 (initState Nat)).1 =
      Except.ok { buf := 2, capacity := 5 } :=
  write_index_frame 8 { buf := 2, capacity := 5 } (initState Nat) 2 0 1
    (by decide)

theorem deref_zst {T : Type} [Inhabited T] (sz : Nat) (b : LockedBuffer T)
    (σ : AllocState T) (h : sz = 0) :
    deref sz b σ = List.replicate b.capacity (some default) := by
  unfold deref
  rw [if_pos h]

theorem deref_pos {T : Type} [Inhabited T] (sz : Nat) (b : LockedBuffer T)
    (σ : AllocState T) (h : sz ≠ 0) :
    deref sz b σ = readBlock b.capacity ((σ.blocks b.buf).getD []) := by
  unfold deref
  rw [if_neg h]

/-- Success characterization of `new`: the returned buffer has capacity
`size` and (for a really allocated buffer) its block holds `size` clones of
the value, independently of the junk the uninitialized block held. -/
theorem new_ok_char {T : Type} (clone : T → T) (sz : Nat) (v : T) (size : Nat)
    (σ σ₁ : AllocState T) (b : LockedBuffer T)
    (h : new clone sz v size σ = (Except.ok b, σ₁)) :
    b.capacity = size ∧
    (sz ≠ 0 → size ≠ 0 →
      σ₁.blocks b.buf = some (List.replicate size (some (clone v)))) := by
  by_cases hzero : size * sz = 0
  · unfold new at h
    rw [uninitialized_zero sz size σ hzero] at h
    simp only [] at h
    injection h with h1 h2
    injection h1 with h1
    subst h1
    subst h2
    refine ⟨rfl, fun hsz hsize => ?_⟩
    exfalso
    rcases Nat.mul_eq_zero.mp hzero with h0 | h0 <;> contradiction
  · have hsz : 0 < sz := Nat.pos_of_ne_zero (fun h0 => hzero (by simp [h0]))
    have hsize : 0 < size := Nat.pos_of_ne_zero (fun h0 => hzero (by simp [h0]))
    rcases Nat.lt_or_ge usizeMax (size * sz) with hov | hov
    · unfold new at h
      rw [uninitialized_overflow sz size σ hov] at h
      simp only [] at h
      injection h with h1 h2
      exact Except.noConfusion h1
    · cases hok : σ.allocOk with
      | false =>
        unfold new at h
        rw [uninitialized_no_alloc_fail sz size σ (Nat.pos_of_ne_zero hzero) hov hok] at h
        simp only [] at h
        injection h with h1 h2
        exact Except.noConfusion h1
      | true =>
        unfold new at h
        rw [uninitialized_pos sz size σ hsz hsize hov hok] at h
        simp only [] at h
        injection h with h1 h2
        subst h2
        injection h1 with h1
        subst h1
        refine ⟨rfl, fun _ _ => ?_⟩
        rw [writeLoop_blocks, if_pos rfl]
        simp [fillN_of_length]

/-- Success characterization of `from_slice`: capacity is the slice length,
the base address is the dangling placeholder or the freshly allocated
address, no other block is touched, and the backing block (when real) holds
exactly the loop-written contents. -/
theorem from_slice_ok_char {T : Type} (clone : T → T) (sz : Nat) (s : List T)
    (σ σ₁ : AllocState T) (b : LockedBuffer T)
    (h : from_slice clone sz s σ = (Except.ok b, σ₁)) :
    b.capacity = s.length ∧
    (b.buf = danglingAddr ∨ b.buf = σ.nextAddr) ∧
    (∀ a, a ≠ b.buf → σ₁.blocks a = σ.blocks a) ∧
    (sz ≠ 0 → s.length ≠ 0 →
      σ₁.blocks b.buf = some (fillFrom clone s 0 (List.replicate s.length none))) := by
  by_cases hzero : s.length * sz = 0
  · unfold from_slice at h
    rw [uninitialized_zero sz s.length σ hzero] at h
    simp only [] at h
    injection h with h1 h2
    injection h1 with h1
    subst h1
    subst h2
    refine ⟨rfl, Or.inl rfl, ?_, ?_⟩
    · intro a ha
      rw [writeSliceLoop_blocks, if_neg ha]
    · intro hsz hsl
      exfalso
      rcases Nat.mul_eq_zero.mp hzero with h0 | h0 <;> contradiction
  · have hsz : 0 < sz := Nat.pos_of_ne_zero (fun h0 => hzero (by simp [h0]))
    have hsl : 0 < s.length := Nat.pos_of_ne_zero (fun h0 => hzero (by simp [h0]))
    rcases Nat.lt_or_ge usizeMax (s.length * sz) with hov | hov
    · unfold from_slice at h
      rw [uninitialized_overflow sz s.length σ hov] at h
      simp only [] at h
      injection h with h1 h2
      exact Except.noConfusion h1
    · cases hok : σ.allocOk with
      | false =>
        unfold from_slice at h
        rw [uninitialized_no_alloc_fail sz s.length σ (Nat.pos_of_ne_zero hzero) hov hok] at h
        simp only [] at h
        injection h with h1 h2
        exact Except.noConfusion h1
      | true =>
        unfold from_slice at h
        rw [uninitialized_pos sz s.length σ hsz hsl hov hok] at h
        simp only [] at h
        injection h with h1 h2
        subst h2
        injection h1 with h1
        subst h1
        refine ⟨rfl, Or.inr rfl, ?_, ?_⟩
        · intro a ha
          have ha2 : a ≠ σ.nextAddr := ha
          rw [writeSliceLoop_blocks, if_neg ha]
          simp [ha2]
        · intro _ _
          rw [writeSliceLoop_blocks, if_pos rfl]
          simp

/-- C1: whenever `new(value, size)` succeeds, the resulting buffer reads back
as exactly `size` elements, every one of which is a clone of `value`
(for a zero-sized element type this uses that all values of such a type are
equal); and for `size = 0` the constructor always succeeds with the empty
placeholder buffer without touching the allocator state. -/
theorem new_fills {T : Type} [Inhabited T] (clone : T → T) (sz : Nat) (v : T)
    (size : Nat) (σ σ₁ : AllocState T) (b : LockedBuffer T)
    (hzst : sz = 0 → ∀ x y : T, x = y)
    (h : new clone sz v size σ = (Except.ok b, σ₁)) :
    (deref sz b σ₁).length = size ∧
    (∀ x ∈ deref sz b σ₁, x = some (clone v)) ∧
    new clone sz v 0 σ = (Except.ok { buf := danglingAddr, capacity := 0 }, σ) := by
  obtain ⟨hcap, hfill⟩ := new_ok_char clone sz v size σ σ₁ b h
  refine ⟨by rw [deref_length, hcap], ?_, ?_⟩
  · intro x hx
    by_cases hsz : sz = 0
    · rw [deref_zst _ _ _ hsz] at hx
      rw [List.eq_of_mem_replicate hx]
      exact congrArg some (hzst hsz default (clone v))
    · by_cases hsize : size = 0
      · exfalso
        rw [deref_pos _ _ _ hsz] at hx
        have hlen : (readBlock b.capacity ((σ₁.blocks b.buf).getD [])).length = 0 := by
          rw [readBlock_length, hcap, hsize]
        rw [List.length_eq_zero] at hlen
        rw [hlen] at hx
        simp at hx
      · rw [deref_pos _ _ _ hsz, hfill hsz hsize] at hx
        simp only [Option.getD_some] at hx
        rw [readBlock_of_length _ _ (by rw [hcap]; simp)] at hx
        exact List.eq_of_mem_replicate hx
  · unfold new
    rw [uninitialized_zero sz 0 σ (by simp)]
    rfl

/-- Witness for C1: `new(&7u64, 2)` from the initial allocator state yields
the buffer at address 2 holding two clones of 7, and `new(&7u64, 0)`
succeeds with the empty placeholder buffer. -/
theorem new_fills_witness :
    (deref 8 { buf := 2, capacity := 2 }
        ((new id 8 (7 : Nat) 2 (initState Nat)).2)).length = 2 ∧
    (∀ x ∈ deref 8 { buf := 2, capacity := 2 }
        ((new id 8 (7 : Nat) 2 (initState Nat)).2), x = some (id 7)) ∧
    new id 8 (7 : Nat) 0 (initState Nat) =
      (Except.ok { buf := danglingAddr, capacity := 0 }, initState Nat) :=
  new_fills id 8 7 2 (initState Nat) ((new id 8 (7 : Nat) 2 (initState Nat)).2)
    { buf := 2, capacity := 2 } (fun hc => absurd hc (by decide)) rfl

/-- C6: whenever `from_slice(s)` succeeds, the resulting buffer reads back as
`len(s)` elements whose `j`-th entry is a clone of `s[j]`, and the storage is
independent of everything else: construction touches no block other than the
buffer's own (freshly allocated, by well-formedness not previously live)
block, and writes into the buffer touch no other block; the source slice,
being a pure value, is unaffected by buffer mutation. -/
theorem from_slice_independent {T : Type} [Inhabited T] (clone : T → T)
    (sz : Nat) (s : List T) (σ σ₁ : AllocState T) (b : LockedBuffer T)
    (hzst : sz = 0 → ∀ x y : T, x = y)
    (h : from_slice clone sz s σ = (Except.ok b, σ₁)) :
    (deref sz b σ₁).length = s.length ∧
    (∀ j, j < s.length →
      (deref sz b σ₁)[j]? = (s[j]?).map (fun x => some (clone x))) ∧
    (∀ a, a ≠ b.buf → σ₁.blocks a = σ.blocks a) ∧
    (WF σ → σ.blocks b.buf = none) ∧
    (∀ i v a, a ≠ b.buf → (writeSlot b i v σ₁).blocks a = σ₁.blocks a) := by
  obtain ⟨hcap, hbuf, hframe, hfill⟩ := from_slice_ok_char clone sz s σ σ₁ b h
  refine ⟨by rw [deref_length, hcap], ?_, hframe, ?_, ?_⟩
  · intro j hj
    by_cases hsz : sz = 0
    · rw [deref_zst _ _ _ hsz, List.getElem?_replicate, if_pos (by omega),
        List.getElem?_eq_getElem hj]
      exact congrArg (fun t => some (some t)) (hzst hsz default (clone _))
    · have hsl : s.length ≠ 0 := by omega
      rw [deref_pos _ _ _ hsz, hcap, hfill hsz hsl]
      simp only [Option.getD_some]
      rw [readBlock_of_length _ _ (by rw [fillFrom_length]; simp),
        fillFrom_getElem?, if_pos (by simp; omega)]
      simp
  · intro hwf
    rcases hbuf with hb | hb <;> rw [hb]
    · exact WF_blocks_dangling σ hwf
    · exact WF_blocks_nextAddr σ hwf
  · intro i v a ha
    rw [writeSlot_blocks, if_neg ha]

/-- Witness for C6: `from_slice(&[3u64, 4u64])` from the initial allocator
state. -/
theorem from_slice_independent_witness :
    (deref 8 { buf := 2, capacity := 2 }
        ((from_slice id 8 [3, 4] (initState Nat)).2)).length = 2 ∧
    (∀ j, j < ([3, 4] : List Nat).length →
      (deref 8 { buf := 2, capacity := 2 }
          ((from_slice id 8 [3, 4] (initState Nat)).2))[j]? =
        (([3, 4] : List Nat)[j]?).map (fun x => some (id x))) ∧
    (∀ a, a ≠ ({ buf := 2, capacity := 2 } : LockedBuffer Nat).buf →
      ((from_slice id 8 [3, 4] (initState Nat)).2).blocks a =
        (initState Nat).blocks a) ∧
    (WF (initState Nat) →
      (initState Nat).blocks ({ buf := 2, capacity := 2 } : LockedBuffer Nat).buf =
        none) ∧
    (∀ i v a, a ≠ ({ buf := 2, capacity := 2 } : LockedBuffer Nat).buf →
      (writeSlot { buf := 2, capacity := 2 } i v
          ((from_slice id 8 [3, 4] (initState Nat)).2)).blocks a =
        ((from_slice id 8 [3, 4] (initState Nat)).2).blocks a) :=
  from_slice_independent id 8 [3, 4] (initState Nat)
    ((from_slice id 8 [3, 4] (initState Nat)).2) { buf := 2, capacity := 2 }
    (fun hc => absurd hc (by decide)) rfl

/-- C10: for a zero-sized element type, `new` succeeds for every capacity
`n` with the placeholder-backed buffer (no allocator call), and that buffer
reports length `n` through all of its read views (`as_slice`, `as_ref`, the
deref view) with safe indexed access succeeding for every `i < n`. -/
theorem zst_full_view {T : Type} [Inhabited T] (clone : T → T) (v : T)
    (n : Nat) (σ : AllocState T) :
    ∃ b σ₁, new clone 0 v n σ = (Except.ok b, σ₁) ∧
      b.buf = danglingAddr ∧ b.capacity = n ∧ len b = n ∧
      σ₁.mallocCalls = σ.mallocCalls ∧
      (as_slice 0 b σ₁).length = n ∧ (as_ref 0 b σ₁).length = n ∧
      (deref 0 b σ₁).length = n ∧
      (∀ i, i < n → (getIdx 0 b σ₁ i).isSome) := by
  refine ⟨{ buf := danglingAddr, capacity := n },
    writeLoop clone { buf := danglingAddr, capacity := n } v n σ,
    ?_, rfl, rfl, rfl, writeLoop_mallocCalls clone _ v n σ, ?_, ?_, ?_, ?_⟩
  · unfold new
    rw [uninitialized_zero 0 n σ (by simp)]
  · unfold as_slice
    rw [deref_length]
  · unfold as_ref
    rw [deref_length]
  · rw [deref_length]
  · intro i hi
    rw [isSome_getIdx_iff]
    exact hi

/-- Witness for C10: a zero-sized element type at capacity 10. -/
theorem zst_full_view_witness :
    ∃ b σ₁, new id 0 () 10 (initState Unit) = (Except.ok b, σ₁) ∧
      b.buf = danglingAddr ∧ b.capacity = 10 ∧ len b = 10 ∧
      σ₁.mallocCalls = (initState Unit).mallocCalls ∧
      (as_slice 0 b σ₁).length = 10 ∧ (as_ref 0 b σ₁).length = 10 ∧
      (deref 0 b σ₁).length = 10 ∧
      (∀ i, i < 10 → (getIdx 0 b σ₁ i).isSome) :=
  zst_full_view id () 10 (initState Unit)

end RustaCUDA
